import Mathlib

/-!
A shallow embedding of the `needle` module (`src/lib.rs`): a single Rust
function `template_match(haystack_buffer, needle_buffer, options)` that decodes
two images with OpenCV, optionally rescales the needle, runs
`cv::matchTemplate` with `TM_CCOEFF_NORMED`, extracts the extremum with
`cv::minMaxLoc`, and thresholds the maximum.

Modelling conventions:
* `f64` values are modelled by an exact linear ordered field `α`
  (instantiated at `ℚ` for executable witnesses and at `ℝ` for the
  normalized-cross-correlation value analysis).
* the OpenCV entry points whose behaviour is opaque from this repository
  (`imdecode`, `resize`, `matchTemplate`) are collected in a record `CvLib`;
  the glue logic of `template_match` is embedded literally over any such
  record, and `opencvLib` instantiates the record with a concrete model of the
  documented OpenCV semantics (bilinear resize, the `TM_*` correlation
  formulas).  `minMaxLoc` is modelled concretely (row-major scan keeping the
  first strict extremum), matching the OpenCV implementation.
* byte buffers are `List ℕ`; napi errors are a status plus a reason string.
-/

namespace Needle

/-- The napi status codes `template_match` uses: `Status::InvalidArg` and
`Status::GenericFailure` (the latter is also what `Error::from_reason`
produces). -/
inductive Status where
  | invalidArg : Status
  | genericFailure : Status
deriving DecidableEq

/-- A napi `Error` as constructed by `Error::new(status, reason)`. -/
structure NapiError where
  status : Status
  reason : String
deriving DecidableEq

/-- The `MatchOptions` input record (src/lib.rs lines 12-17): both fields
optional. -/
structure MatchOptions (α : Type) where
  threshold : Option α
  scale : Option α
deriving DecidableEq

/-- The `MatchResult` output record (src/lib.rs lines 19-26). -/
structure MatchResult (α : Type) where
  found : Bool
  x : Option ℤ
  y : Option ℤ
  confidence : α
deriving DecidableEq

/-- `cv::Size` (`i32` width/height). -/
structure Size where
  width : ℤ
  height : ℤ
deriving DecidableEq

/-- `cv::Point` (`i32` x/y). -/
structure Point where
  x : ℤ
  y : ℤ
deriving DecidableEq

/-- A decoded colour image (`cv::Mat` with 3 channels, as produced by
`imdecode(..., IMREAD_COLOR)`): pixel values indexed by row, column and
channel.  Row and column counts are natural numbers; `pix` is total (values
outside the geometry are irrelevant junk). -/
structure Mat (α : Type) where
  rows : ℕ
  cols : ℕ
  pix : ℕ → ℕ → Fin 3 → α

/-- `Mat::empty()`: true iff the image has no pixels. -/
def Mat.empty {α : Type} (m : Mat α) : Bool :=
  m.rows == 0 || m.cols == 0

/-- `Mat::size()`: `cv::Size(cols, rows)`. -/
def Mat.size {α : Type} (m : Mat α) : Size :=
  ⟨(m.cols : ℤ), (m.rows : ℤ)⟩

/-- A single-channel `CV_32FC1` result matrix (the correlation surface). -/
structure Surface (α : Type) where
  rows : ℕ
  cols : ℕ
  pix : ℕ → ℕ → α

/-- The OpenCV template-matching modes of `cv::TemplateMatchModes`;
src/lib.rs line 99 passes `TM_CCOEFF_NORMED`. -/
inductive TMethod where
  | sqdiff : TMethod
  | sqdiffNormed : TMethod
  | ccorr : TMethod
  | ccorrNormed : TMethod
  | ccoeff : TMethod
  | ccoeffNormed : TMethod
deriving DecidableEq

/-- The result record of `cv::minMaxLoc`. -/
structure MinMax (α : Type) where
  minVal : α
  maxVal : α
  minLoc : Point
  maxLoc : Point
deriving DecidableEq

variable {α : Type} [LinearOrderedField α] [FloorRing α]

/-- The min-branch of one `minMaxLoc` scan step: a strictly smaller value
replaces the current minimum and records its location. -/
def mmUpdateMin (s : Surface α) (acc : MinMax α) (p : ℕ × ℕ) : MinMax α :=
  if s.pix p.1 p.2 < acc.minVal then
    { acc with minVal := s.pix p.1 p.2, minLoc := ⟨(p.2 : ℤ), (p.1 : ℤ)⟩ }
  else acc

/-- The max-branch of one `minMaxLoc` scan step: a strictly larger value
replaces the current maximum and records its location. -/
def mmUpdateMax (s : Surface α) (acc : MinMax α) (p : ℕ × ℕ) : MinMax α :=
  if acc.maxVal < s.pix p.1 p.2 then
    { acc with maxVal := s.pix p.1 p.2, maxLoc := ⟨(p.2 : ℤ), (p.1 : ℤ)⟩ }
  else acc

/-- One `minMaxLoc` scan step over cell `p = (row, col)`. -/
def mmUpdate (s : Surface α) (acc : MinMax α) (p : ℕ × ℕ) : MinMax α :=
  mmUpdateMax s (mmUpdateMin s acc p) p

/-- All cells of a surface in row-major scan order, as `(row, col)` pairs. -/
def scanCells (s : Surface α) : List (ℕ × ℕ) :=
  (List.range s.rows).flatMap fun y => (List.range s.cols).map fun x => (y, x)

/-- Model of `cv::minMaxLoc`: scan every cell in row-major order, keeping the
first occurrence of the strict minimum and maximum (OpenCV updates only on
strict improvement).  On an empty surface the result is junk; the code only
reaches `minMaxLoc` with a nonempty surface. -/
def minMaxLoc (s : Surface α) : MinMax α :=
  (scanCells s).foldl (mmUpdate s) ⟨s.pix 0 0, s.pix 0 0, ⟨0, 0⟩, ⟨0, 0⟩⟩

/-- Rust `expr as i32` applied to an `f64`: truncation toward zero, saturating
at the `i32` range, modelled over an exact field. -/
def f64_as_i32 (q : α) : ℤ :=
  let t : ℤ := if 0 ≤ q then ⌊q⌋ else ⌈q⌉
  if t < -(2 ^ 31) then -(2 ^ 31)
  else if (2 ^ 31 - 1 : ℤ) < t then 2 ^ 31 - 1
  else t

/-- The `new_size` computed at src/lib.rs lines 57-60:
`Size::new((needle.cols() as f64 * scale) as i32, (needle.rows() as f64 * scale) as i32)`. -/
def scaledSize (needle : Mat α) (scale : α) : Size :=
  ⟨f64_as_i32 ((needle.cols : α) * scale), f64_as_i32 ((needle.rows : α) * scale)⟩

/-- Line 34: `options.as_ref().and_then(|o| o.threshold).unwrap_or(0.8)`. -/
def thresholdOf (options : Option (MatchOptions α)) : α :=
  (options.bind MatchOptions.threshold).getD 0.8

/-- Line 35: `options.as_ref().and_then(|o| o.scale).unwrap_or(1.0)`. -/
def scaleOf (options : Option (MatchOptions α)) : α :=
  (options.bind MatchOptions.scale).getD 1

/-- The OpenCV entry points called by `template_match` whose behaviour is not
part of this repository, collected as a record so the glue logic can be
analysed for any library behaviour.  `opencvLib` below instantiates it with a
concrete model of the documented OpenCV semantics. -/
structure CvLib (α : Type) where
  imdecode : List ℕ → Except String (Mat α)
  resize : Mat α → Size → Except String (Mat α)
  matchTemplate : Mat α → Mat α → TMethod → Except String (Surface α)

/-- Shallow embedding of `template_match` (src/lib.rs lines 29-127), stage by
stage: option defaulting (lines 34-35), decoding (43-51), the empty check
(49-51), scaled-size computation (57-60), resize (63-71), the fits-check
(77-82), the result-matrix dimensions (84-85, dead values: `match_template`
sizes its own output), matching with `TM_CCOEFF_NORMED` (95-102), extremum
extraction (109-117) and result shaping (119-126).  Error mapping follows the
source: decode/match failures become `GenericFailure` with the prefixed
message, `Error::from_reason` (resize) is `GenericFailure` with the bare
message, the empty check and the fits-check are `InvalidArg`.  The three
`map_err`-wrapped calls that cannot fail on the values reaching them —
`Mat::size()` on a decoded image (lines 53-55 and 73-75) and `min_max_loc` on
the nonempty result matrix (lines 109-117) — are modelled as total. -/
def template_match (lib : CvLib α) (haystack_buffer needle_buffer : List ℕ)
    (options : Option (MatchOptions α)) : Except NapiError (MatchResult α) :=
  let threshold := thresholdOf options
  let scale := scaleOf options
  match lib.imdecode haystack_buffer with
  | .error e => .error ⟨.genericFailure, "解码大图失败: " ++ e⟩
  | .ok haystack =>
    match lib.imdecode needle_buffer with
    | .error e => .error ⟨.genericFailure, "解码模板图失败: " ++ e⟩
    | .ok needle =>
      if haystack.empty || needle.empty then
        .error ⟨.invalidArg, "图片数据为空"⟩
      else
        let haystack_size := haystack.size
        let new_size := scaledSize needle scale
        match lib.resize needle new_size with
        | .error e => .error ⟨.genericFailure, e⟩
        | .ok resized_needle =>
          let needle_size := resized_needle.size
          if haystack_size.width < needle_size.width ∨
              haystack_size.height < needle_size.height then
            .error ⟨.invalidArg, "模板图尺寸大于大图，无法匹配"⟩
          else
            let _result_cols := haystack_size.width - needle_size.width + 1
            let _result_rows := haystack_size.height - needle_size.height + 1
            match lib.matchTemplate haystack resized_needle .ccoeffNormed with
            | .error e => .error ⟨.genericFailure, "模板匹配失败: " ++ e⟩
            | .ok result =>
              let mm := minMaxLoc result
              let matched : Bool := decide (mm.maxVal ≥ threshold)
              .ok { found := matched,
                    x := if matched then some mm.maxLoc.x else none,
                    y := if matched then some mm.maxLoc.y else none,
                    confidence := mm.maxVal }

/-! ### A concrete model of the OpenCV primitives

`cv::resize` with `INTER_LINEAR` (bilinear interpolation over half-pixel
centres, border replicated) and `cv::matchTemplate` with the documented
`TM_*` formulas, in exact arithmetic.  The square root needed by the
normalised modes is passed as a parameter so the definitions stay polymorphic;
it is instantiated with `Real.sqrt` for the value analysis. -/

/-- Clamp an integer coordinate into `[0, n-1]` (border replication). -/
def clampIdx (n : ℕ) (i : ℤ) : ℕ :=
  (max 0 (min i ((n : ℤ) - 1))).toNat

/-- The pixel grid of `cv::resize(src, dsize, 0.0, 0.0, INTER_LINEAR)`:
destination pixel centres are mapped into the source by
`fx = (x + 1/2) * src_w / dst_w - 1/2` (and likewise for rows) and the four
surrounding source pixels are blended bilinearly, clamping coordinates at the
border. -/
def cvResizeMat (src : Mat α) (dsize : Size) : Mat α :=
  { rows := dsize.height.toNat
    cols := dsize.width.toNat
    pix := fun y x c =>
      let fx : α := ((x : α) + 1 / 2) * ((src.cols : α) / (dsize.width.toNat : α)) - 1 / 2
      let fy : α := ((y : α) + 1 / 2) * ((src.rows : α) / (dsize.height.toNat : α)) - 1 / 2
      let x0 : ℤ := ⌊fx⌋
      let y0 : ℤ := ⌊fy⌋
      let ax : α := fx - (x0 : α)
      let ay : α := fy - (y0 : α)
      let p00 := src.pix (clampIdx src.rows y0) (clampIdx src.cols x0) c
      let p01 := src.pix (clampIdx src.rows y0) (clampIdx src.cols (x0 + 1)) c
      let p10 := src.pix (clampIdx src.rows (y0 + 1)) (clampIdx src.cols x0) c
      let p11 := src.pix (clampIdx src.rows (y0 + 1)) (clampIdx src.cols (x0 + 1)) c
      (1 - ay) * ((1 - ax) * p00 + ax * p01) + ay * ((1 - ax) * p10 + ax * p11) }

/-- Model of `cv::resize` as called at src/lib.rs lines 63-71 (explicit
`dsize`, `fx = fy = 0.0`): a degenerate requested size or an empty source
fails the OpenCV assertions (`!dsize.empty()` after the `fx/fy` fallback,
`!ssize.empty()`); otherwise the output has exactly the requested size and
bilinearly interpolated pixels. -/
def cvResize (src : Mat α) (dsize : Size) : Except String (Mat α) :=
  if dsize.width ≤ 0 ∨ dsize.height ≤ 0 then
    .error "resize: empty destination size"
  else if src.rows = 0 ∨ src.cols = 0 then
    .error "resize: empty source"
  else
    .ok (cvResizeMat src dsize)

/-- The index set of a template-sized patch: `(row, col)` within the template
geometry, times the 3 colour channels. -/
def patchIdx (t : Mat α) : Finset ((ℕ × ℕ) × Fin 3) :=
  (Finset.range t.rows ×ˢ Finset.range t.cols) ×ˢ (Finset.univ : Finset (Fin 3))

/-- Number of pixels of the template patch, as a field element. -/
def patchArea (t : Mat α) : α :=
  ((t.rows : α) * (t.cols : α))

/-- Per-channel mean of the template (`TM_CCOEFF`: separate mean per
channel). -/
def tMean (t : Mat α) (c : Fin 3) : α :=
  (∑ p ∈ Finset.range t.rows ×ˢ Finset.range t.cols, t.pix p.1 p.2 c) / patchArea t

/-- Per-channel mean of the haystack window anchored at `(x, y)` with the
template's geometry. -/
def wMean (img t : Mat α) (x y : ℕ) (c : Fin 3) : α :=
  (∑ p ∈ Finset.range t.rows ×ˢ Finset.range t.cols, img.pix (y + p.1) (x + p.2) c) / patchArea t

/-- Mean-centred template value `T'` at patch index `p`. -/
def tCentered (t : Mat α) (p : (ℕ × ℕ) × Fin 3) : α :=
  t.pix p.1.1 p.1.2 p.2 - tMean t p.2

/-- Mean-centred haystack-window value `I'` at patch index `p`, window anchored
at `(x, y)`. -/
def wCentered (img t : Mat α) (x y : ℕ) (p : (ℕ × ℕ) × Fin 3) : α :=
  img.pix (y + p.1.1) (x + p.1.2) p.2 - wMean img t x y p.2

/-- `TM_CCOEFF` numerator: `Σ T'(x',y') * I'(x+x', y+y')` over the patch and
the channels. -/
def ccoeffSum (img t : Mat α) (x y : ℕ) : α :=
  ∑ p ∈ patchIdx t, tCentered t p * wCentered img t x y p

/-- Sum of squares of the mean-centred template. -/
def tCSq (t : Mat α) : α :=
  ∑ p ∈ patchIdx t, tCentered t p ^ 2

/-- Sum of squares of the mean-centred haystack window anchored at `(x, y)`. -/
def wCSq (img t : Mat α) (x y : ℕ) : α :=
  ∑ p ∈ patchIdx t, wCentered img t x y p ^ 2

/-- `TM_CCORR` numerator: plain cross-correlation. -/
def ccorrSum (img t : Mat α) (x y : ℕ) : α :=
  ∑ p ∈ patchIdx t, t.pix p.1.1 p.1.2 p.2 * img.pix (y + p.1.1) (x + p.1.2) p.2

/-- `TM_SQDIFF` value: sum of squared differences. -/
def sqdiffSum (img t : Mat α) (x y : ℕ) : α :=
  ∑ p ∈ patchIdx t, (t.pix p.1.1 p.1.2 p.2 - img.pix (y + p.1.1) (x + p.1.2) p.2) ^ 2

/-- Sum of squares of the raw template values. -/
def tSq (t : Mat α) : α :=
  ∑ p ∈ patchIdx t, t.pix p.1.1 p.1.2 p.2 ^ 2

/-- Sum of squares of the raw haystack-window values anchored at `(x, y)`. -/
def wSq (img t : Mat α) (x y : ℕ) : α :=
  ∑ p ∈ patchIdx t, img.pix (y + p.1.1) (x + p.1.2) p.2 ^ 2

/-- The cell value of `cv::matchTemplate` for each matching mode, at anchor
`(x, y)`; the normalised modes divide by `sqrt` of the product of the two
energy terms.  `TM_CCOEFF_NORMED` is the coefficient-normalised
cross-correlation `Σ T' I' / sqrt(Σ T'^2 * Σ I'^2)`. -/
def tmValue (sqrt : α → α) (m : TMethod) (img t : Mat α) (x y : ℕ) : α :=
  match m with
  | .sqdiff => sqdiffSum img t x y
  | .sqdiffNormed => sqdiffSum img t x y / sqrt (tSq t * wSq img t x y)
  | .ccorr => ccorrSum img t x y
  | .ccorrNormed => ccorrSum img t x y / sqrt (tSq t * wSq img t x y)
  | .ccoeff => ccoeffSum img t x y
  | .ccoeffNormed => ccoeffSum img t x y / sqrt (tCSq t * wCSq img t x y)

/-- The correlation surface of `cv::matchTemplate`: size
`(img.cols - t.cols + 1) × (img.rows - t.rows + 1)`, cell `(x, y)` holding the
mode's similarity between the template and the window anchored at `(x, y)`. -/
def cvMatchSurface (sqrt : α → α) (m : TMethod) (img t : Mat α) : Surface α :=
  { rows := img.rows - t.rows + 1
    cols := img.cols - t.cols + 1
    pix := fun y x => tmValue sqrt m img t x y }

/-- Model of `cv::matchTemplate`: the sizes must satisfy the OpenCV assertion
(template nonempty and no larger than the image); the output is the
correlation surface. -/
def cvMatchTemplate (sqrt : α → α) (img t : Mat α) (m : TMethod) :
    Except String (Surface α) :=
  if img.rows < t.rows ∨ img.cols < t.cols ∨ t.rows = 0 ∨ t.cols = 0 then
    .error "matchTemplate: bad sizes"
  else
    .ok (cvMatchSurface sqrt m img t)

/-- The concrete OpenCV library model: decoding stays an oracle (`imdecode`
parses compressed formats whose semantics are outside this repository), while
`resize` and `matchTemplate` follow the documented OpenCV behaviour. -/
def opencvLib (dec : List ℕ → Except String (Mat α)) (sqrt : α → α) : CvLib α :=
  { imdecode := dec
    resize := cvResize
    matchTemplate := cvMatchTemplate sqrt }

/-! ### Concrete instances used by the witnesses -/

/-- A 1×1 all-zero rational image. -/
def wMat1 : Mat ℚ := ⟨1, 1, fun _ _ _ => 0⟩

/-- A 2×2 all-zero rational image. -/
def wMat2 : Mat ℚ := ⟨2, 2, fun _ _ _ => 0⟩

/-- A 3×3 all-zero rational image (used for the rounding counterexample). -/
def wMat3 : Mat ℚ := ⟨3, 3, fun _ _ _ => 0⟩

/-- An empty 0×0 rational image, as `imdecode` yields on undecodable data. -/
def wMatEmpty : Mat ℚ := ⟨0, 0, fun _ _ _ => 0⟩

/-- A 1×1 all-zero rational surface. -/
def wSurf1 : Surface ℚ := ⟨1, 1, fun _ _ => 0⟩

/-- A toy library behaviour: every buffer decodes to the 1×1 zero image,
resize returns its input unchanged, matching returns the 1×1 zero surface. -/
def wlib1 : CvLib ℚ :=
  { imdecode := fun _ => .ok wMat1
    resize := fun src _ => .ok src
    matchTemplate := fun _ _ _ => .ok wSurf1 }

/-- A toy library behaviour whose decoder always throws. -/
def wlibErr : CvLib ℚ :=
  { wlib1 with imdecode := fun _ => .error "bad" }

/-- A toy library behaviour whose decoder returns an empty image. -/
def wlibEmpty : CvLib ℚ :=
  { wlib1 with imdecode := fun _ => .ok wMatEmpty }

/-- A toy library behaviour decoding the buffer `[0]` to a 1×1 image and
anything else to a 2×2 image, so the needle exceeds the haystack. -/
def wlibBig : CvLib ℚ :=
  { wlib1 with imdecode := fun b => .ok (if b = [0] then wMat1 else wMat2) }

/-- A rational decode oracle for the concrete OpenCV model: every buffer
decodes to the 1×1 zero image. -/
def wdecQ : List ℕ → Except String (Mat ℚ) := fun _ => .ok wMat1

/-- A 1×1 all-zero real image for the real-valued witnesses. -/
noncomputable def wMatR : Mat ℝ := ⟨1, 1, fun _ _ _ => 0⟩

/-- The decode oracle used with the concrete OpenCV model over `ℝ`. -/
noncomputable def wdecR : List ℕ → Except String (Mat ℝ) := fun _ => .ok wMatR

/-- The max-tracking invariant of the `minMaxLoc` scan: the recorded maximum
is the value of an in-range cell whose coordinates are the recorded
location. -/
def MMInv (s : Surface α) (acc : MinMax α) : Prop :=
  ∃ y x, y < s.rows ∧ x < s.cols ∧
    acc.maxLoc = ⟨(x : ℤ), (y : ℤ)⟩ ∧ acc.maxVal = s.pix y x

/-! ### Lemmas about the `minMaxLoc` scan -/

theorem mmUpdateMin_maxVal (s : Surface α) (acc : MinMax α) (p : ℕ × ℕ) :
    (mmUpdateMin s acc p).maxVal = acc.maxVal := by
  unfold mmUpdateMin; split <;> rfl

theorem mmUpdateMin_maxLoc (s : Surface α) (acc : MinMax α) (p : ℕ × ℕ) :
    (mmUpdateMin s acc p).maxLoc = acc.maxLoc := by
  unfold mmUpdateMin; split <;> rfl

theorem le_mmUpdateMax_maxVal (s : Surface α) (acc : MinMax α) (p : ℕ × ℕ) :
    acc.maxVal ≤ (mmUpdateMax s acc p).maxVal := by
  unfold mmUpdateMax; split
  · exact le_of_lt (by assumption)
  · exact le_rfl

theorem pix_le_mmUpdateMax_maxVal (s : Surface α) (acc : MinMax α) (p : ℕ × ℕ) :
    s.pix p.1 p.2 ≤ (mmUpdateMax s acc p).maxVal := by
  unfold mmUpdateMax; split
  · exact le_rfl
  · exact le_of_not_lt (by assumption)

theorem le_mmUpdate_maxVal (s : Surface α) (acc : MinMax α) (p : ℕ × ℕ) :
    acc.maxVal ≤ (mmUpdate s acc p).maxVal := by
  unfold mmUpdate
  calc acc.maxVal = (mmUpdateMin s acc p).maxVal := (mmUpdateMin_maxVal s acc p).symm
    _ ≤ _ := le_mmUpdateMax_maxVal s _ p

theorem pix_le_mmUpdate_maxVal (s : Surface α) (acc : MinMax α) (p : ℕ × ℕ) :
    s.pix p.1 p.2 ≤ (mmUpdate s acc p).maxVal :=
  pix_le_mmUpdateMax_maxVal s _ p

theorem mmUpdate_maxVal_le (s : Surface α) (acc : MinMax α) (p : ℕ × ℕ) (c : α)
    (h1 : s.pix p.1 p.2 ≤ c) (h2 : acc.maxVal ≤ c) :
    (mmUpdate s acc p).maxVal ≤ c := by
  unfold mmUpdate mmUpdateMax
  split
  · exact h1
  · rw [mmUpdateMin_maxVal]; exact h2

theorem le_foldl_mmUpdate_maxVal (s : Surface α) :
    ∀ (l : List (ℕ × ℕ)) (acc : MinMax α),
      acc.maxVal ≤ (l.foldl (mmUpdate s) acc).maxVal := by
  intro l
  induction l with
  | nil => intro acc; exact le_rfl
  | cons q l ih =>
      intro acc
      exact le_trans (le_mmUpdate_maxVal s acc q) (ih (mmUpdate s acc q))

theorem pix_le_foldl_mmUpdate_maxVal (s : Surface α) :
    ∀ (l : List (ℕ × ℕ)) (acc : MinMax α) (p : ℕ × ℕ), p ∈ l →
      s.pix p.1 p.2 ≤ (l.foldl (mmUpdate s) acc).maxVal := by
  intro l
  induction l with
  | nil => intro acc p hp; cases hp
  | cons q l ih =>
      intro acc p hp
      rcases List.mem_cons.mp hp with h | h
      · subst h
        exact le_trans (pix_le_mmUpdate_maxVal s acc p)
          (le_foldl_mmUpdate_maxVal s l _)
      · exact ih _ p h

theorem foldl_mmUpdate_maxVal_le (s : Surface α) (c : α) :
    ∀ (l : List (ℕ × ℕ)) (acc : MinMax α), (∀ p ∈ l, s.pix p.1 p.2 ≤ c) →
      acc.maxVal ≤ c → (l.foldl (mmUpdate s) acc).maxVal ≤ c := by
  intro l
  induction l with
  | nil => intro acc _ hacc; exact hacc
  | cons q l ih =>
      intro acc hl hacc
      exact ih _ (fun p hp => hl p (List.mem_cons_of_mem q hp))
        (mmUpdate_maxVal_le s acc q c (hl q (List.mem_cons_self q l)) hacc)

theorem mmUpdate_MMInv (s : Surface α) (acc : MinMax α) (p : ℕ × ℕ)
    (hp1 : p.1 < s.rows) (hp2 : p.2 < s.cols) (h : MMInv s acc) :
    MMInv s (mmUpdate s acc p) := by
  unfold mmUpdate mmUpdateMax
  split
  · exact ⟨p.1, p.2, hp1, hp2, rfl, rfl⟩
  · obtain ⟨y, x, hy, hx, hloc, hval⟩ := h
    exact ⟨y, x, hy, hx, by rw [mmUpdateMin_maxLoc]; exact hloc,
      by rw [mmUpdateMin_maxVal]; exact hval⟩

theorem foldl_mmUpdate_MMInv (s : Surface α) :
    ∀ (l : List (ℕ × ℕ)) (acc : MinMax α),
      (∀ p ∈ l, p.1 < s.rows ∧ p.2 < s.cols) →
      MMInv s acc → MMInv s (l.foldl (mmUpdate s) acc) := by
  intro l
  induction l with
  | nil => intro acc _ h; exact h
  | cons q l ih =>
      intro acc hl h
      exact ih _ (fun p hp => hl p (List.mem_cons_of_mem q hp))
        (mmUpdate_MMInv s acc q (hl q (List.mem_cons_self q l)).1
          (hl q (List.mem_cons_self q l)).2 h)

theorem mem_scanCells (s : Surface α) (p : ℕ × ℕ) :
    p ∈ scanCells s ↔ p.1 < s.rows ∧ p.2 < s.cols := by
  unfold scanCells
  constructor
  · intro hp
    rcases List.mem_flatMap.mp hp with ⟨y, hy, hmem⟩
    rcases List.mem_map.mp hmem with ⟨x, hx, hpx⟩
    subst hpx
    exact ⟨List.mem_range.mp hy, List.mem_range.mp hx⟩
  · rintro ⟨h1, h2⟩
    exact List.mem_flatMap.mpr ⟨p.1, List.mem_range.mpr h1,
      List.mem_map.mpr ⟨p.2, List.mem_range.mpr h2, rfl⟩⟩

/-- The recorded maximum dominates every in-range cell. -/
theorem minMaxLoc_ge (s : Surface α) {y x : ℕ} (hy : y < s.rows) (hx : x < s.cols) :
    s.pix y x ≤ (minMaxLoc s).maxVal :=
  pix_le_foldl_mmUpdate_maxVal s (scanCells s) _ (y, x)
    ((mem_scanCells s (y, x)).mpr ⟨hy, hx⟩)

/-- On a nonempty surface the recorded maximum is attained at the recorded
location. -/
theorem minMaxLoc_attained (s : Surface α) (hr : 0 < s.rows) (hc : 0 < s.cols) :
    MMInv s (minMaxLoc s) := by
  apply foldl_mmUpdate_MMInv
  · intro p hp; exact (mem_scanCells s p).mp hp
  · exact ⟨0, 0, hr, hc, rfl, rfl⟩

/-- A uniform bound on all cells (including the `(0,0)` initialisation) bounds
the recorded maximum. -/
theorem minMaxLoc_maxVal_le (s : Surface α) (c : α) (h : ∀ y x, s.pix y x ≤ c) :
    (minMaxLoc s).maxVal ≤ c :=
  foldl_mmUpdate_maxVal_le s c (scanCells s) _ (fun p _ => h p.1 p.2) (h 0 0)

/-- The recorded maximum is at least the initial `(0,0)` cell. -/
theorem le_minMaxLoc_maxVal (s : Surface α) : s.pix 0 0 ≤ (minMaxLoc s).maxVal := by
  unfold minMaxLoc
  exact le_foldl_mmUpdate_maxVal s (scanCells s) ⟨s.pix 0 0, s.pix 0 0, ⟨0, 0⟩, ⟨0, 0⟩⟩

/-! ### Arithmetic facts about the narrowing cast -/

/-- The `i32` clamp keeps a nonpositive value nonpositive. -/
theorem clamp_nonpos (t : ℤ) (h : t ≤ 0) :
    (if t < -(2 ^ 31) then -(2 ^ 31)
      else if (2 ^ 31 - 1 : ℤ) < t then 2 ^ 31 - 1 else t) ≤ 0 := by
  split
  · norm_num
  · split
    · omega
    · exact h

/-- The `i32` clamp is the identity inside the range. -/
theorem clamp_of_range (t : ℤ) (h1 : -(2 ^ 31) ≤ t) (h2 : t ≤ 2 ^ 31 - 1) :
    (if t < -(2 ^ 31) then -(2 ^ 31)
      else if (2 ^ 31 - 1 : ℤ) < t then 2 ^ 31 - 1 else t) = t := by
  rw [if_neg (by omega), if_neg (by omega)]

/-- For a nonnegative product within the `i32` range the cast is plain
`⌊·⌋` (truncation toward zero coincides with the floor). -/
theorem f64_as_i32_of_nonneg (q : α) (h0 : 0 ≤ q) (hq : q < 2 ^ 31) :
    f64_as_i32 q = ⌊q⌋ := by
  have h1 : (0 : ℤ) ≤ ⌊q⌋ := Int.floor_nonneg.mpr h0
  have h2 : ⌊q⌋ < 2 ^ 31 := Int.floor_lt.mpr (by exact_mod_cast hq)
  unfold f64_as_i32
  rw [if_pos h0]
  exact clamp_of_range ⌊q⌋ (by omega) (by omega)

/-- A nonpositive value casts to a nonpositive `i32`. -/
theorem f64_as_i32_nonpos (q : α) (hq : q ≤ 0) : f64_as_i32 q ≤ 0 := by
  have h1 : ⌊q⌋ ≤ 0 := by
    calc ⌊q⌋ ≤ ⌊(0 : α)⌋ := Int.floor_le_floor hq
      _ = 0 := Int.floor_zero
  have h2 : ⌈q⌉ ≤ 0 := by
    calc ⌈q⌉ ≤ ⌈(0 : α)⌉ := Int.ceil_le_ceil hq
      _ = 0 := Int.ceil_zero
  unfold f64_as_i32
  split
  · exact clamp_nonpos ⌊q⌋ h1
  · exact clamp_nonpos ⌈q⌉ h2

/-! ### Threshold independence of the control flow -/

/-- The threshold option only shapes the final record: two calls with the same
library, buffers and effective scale succeed or fail together, and fail with
the identical error. -/
theorem template_match_threshold_indep (lib : CvLib α) (bh bn : List ℕ)
    (o₁ o₂ : Option (MatchOptions α)) (hsc : scaleOf o₁ = scaleOf o₂) :
    ((template_match lib bh bn o₁).isOk = (template_match lib bh bn o₂).isOk) ∧
    (∀ e, template_match lib bh bn o₁ = .error e →
      template_match lib bh bn o₂ = .error e) := by
  unfold template_match
  simp only [hsc]
  rcases hdh : lib.imdecode bh with e | H
  · simp [hdh]
  rcases hdn : lib.imdecode bn with e | N
  · simp [hdh, hdn]
  by_cases hE : H.empty = true ∨ N.empty = true
  · simp [hdh, hdn, hE]
  · rcases hres : lib.resize N (scaledSize N (scaleOf o₂)) with e | R
    · simp [hdh, hdn, hE, hres]
    by_cases hf : H.size.width < R.size.width ∨ H.size.height < R.size.height
    · simp [hdh, hdn, hE, hres, hf]
    · rcases hmt : lib.matchTemplate H R .ccoeffNormed with e | surf
      · simp [hdh, hdn, hE, hres, hf, hmt]
      · simp [hdh, hdn, hE, hres, hf, hmt, Except.isOk, Except.toBool]

/-! ### The Cauchy-Schwarz bound on the normalised correlation -/

/-- If the haystack pixels are all zero every centred window term vanishes,
so the `TM_CCOEFF` numerator is zero. -/
theorem ccoeffSum_zero_haystack (img t : Mat α) (x y : ℕ)
    (h : ∀ a b c, img.pix a b c = 0) : ccoeffSum img t x y = 0 := by
  unfold ccoeffSum wCentered wMean
  simp [h]

/-- Cauchy-Schwarz: every `TM_CCOEFF_NORMED` cell value lies in `[-1, 1]`
(at zero variance the quotient is the junk value `0`, also in range). -/
theorem ccoeffNormed_abs_le_one (img t : Mat ℝ) (x y : ℕ) :
    |tmValue Real.sqrt .ccoeffNormed img t x y| ≤ 1 := by
  have hCS : ccoeffSum img t x y ^ 2 ≤ tCSq t * wCSq img t x y := by
    unfold ccoeffSum tCSq wCSq
    exact Finset.sum_mul_sq_le_sq_mul_sq (patchIdx t) (tCentered t) (wCentered img t x y)
  have hnn : (0 : ℝ) ≤ Real.sqrt (tCSq t * wCSq img t x y) := Real.sqrt_nonneg _
  have habs : |ccoeffSum img t x y| ≤ Real.sqrt (tCSq t * wCSq img t x y) := by
    rw [← Real.sqrt_sq_eq_abs]
    exact Real.sqrt_le_sqrt hCS
  have hv : tmValue Real.sqrt .ccoeffNormed img t x y =
      ccoeffSum img t x y / Real.sqrt (tCSq t * wCSq img t x y) := rfl
  rw [hv, abs_div, abs_of_nonneg hnn]
  exact div_le_one_of_le₀ habs hnn

/-! ### The claims -/

/-- C9: `template_match` is deterministic — two calls with identical library
behaviour, buffers and options produce identical outcomes; the embedding is a
pure function of its inputs, mirroring the source's absence of any global or
retained state. -/
theorem C9_deterministic (lib : CvLib α) (bh bn : List ℕ)
    (options : Option (MatchOptions α)) (r₁ r₂ : Except NapiError (MatchResult α))
    (h₁ : template_match lib bh bn options = r₁)
    (h₂ : template_match lib bh bn options = r₂) : r₁ = r₂ := by
  rw [← h₁, ← h₂]

/-- C9 witness at a concrete call. -/
theorem C9_deterministic_witness :
    template_match wlib1 [0] [0] none = template_match wlib1 [0] [0] none :=
  C9_deterministic wlib1 [0] [0] none _ _ rfl rfl

/-- C4: whenever either buffer fails to decode, or decodes to an empty image,
`template_match` returns an error and never a `MatchResult`. -/
theorem C4_decode_failure_raises (lib : CvLib α) (bh bn : List ℕ)
    (options : Option (MatchOptions α))
    (h : (∃ e, lib.imdecode bh = .error e) ∨ (∃ e, lib.imdecode bn = .error e) ∨
      (∃ H N, lib.imdecode bh = .ok H ∧ lib.imdecode bn = .ok N ∧
        (H.empty = true ∨ N.empty = true))) :
    ∃ err, template_match lib bh bn options = .error err := by
  rcases h with ⟨e, he⟩ | ⟨e, he⟩ | ⟨H, N, hH, hN, hE⟩
  · exact ⟨⟨.genericFailure, "解码大图失败: " ++ e⟩, by simp [template_match, he]⟩
  · rcases hdh : lib.imdecode bh with e2 | H
    · exact ⟨⟨.genericFailure, "解码大图失败: " ++ e2⟩, by simp [template_match, hdh]⟩
    · exact ⟨⟨.genericFailure, "解码模板图失败: " ++ e⟩, by simp [template_match, hdh, he]⟩
  · exact ⟨⟨.invalidArg, "图片数据为空"⟩, by simp [template_match, hH, hN, hE]⟩

/-- C4 witness: a throwing decoder yields an error result. -/
theorem C4_decode_failure_raises_witness :
    ∃ err, template_match wlibErr [0] [1] none = .error err :=
  C4_decode_failure_raises wlibErr [0] [1] none (.inl ⟨"bad", rfl⟩)

/-- C3: given successfully decoded nonempty images and a successful resize,
`template_match` fails with an invalid-argument error exactly when the scaled
needle exceeds the haystack in width or height; otherwise no invalid-argument
error is raised and matching proceeds. -/
theorem C3_fit_check (lib : CvLib α) (bh bn : List ℕ)
    (options : Option (MatchOptions α)) (H N R : Mat α)
    (hH : lib.imdecode bh = .ok H) (hN : lib.imdecode bn = .ok N)
    (hHe : H.empty = false) (hNe : N.empty = false)
    (hres : lib.resize N (scaledSize N (scaleOf options)) = .ok R) :
    (∃ e, template_match lib bh bn options = .error e ∧ e.status = .invalidArg) ↔
      (H.size.width < R.size.width ∨ H.size.height < R.size.height) := by
  have hE : ¬(H.empty = true ∨ N.empty = true) := by simp [hHe, hNe]
  constructor
  · rintro ⟨e, he, hs⟩
    by_contra hfit
    rcases hmt : lib.matchTemplate H R .ccoeffNormed with e2 | surf
    · have hrun : template_match lib bh bn options =
          .error ⟨.genericFailure, "模板匹配失败: " ++ e2⟩ := by
        simp [template_match, hH, hN, hE, hres, hfit, hmt]
      rw [hrun] at he
      cases he
      simp at hs
    · by_cases hth : (minMaxLoc surf).maxVal ≥ thresholdOf options
      · have hok : template_match lib bh bn options = .ok ⟨true,
            some (minMaxLoc surf).maxLoc.x, some (minMaxLoc surf).maxLoc.y,
            (minMaxLoc surf).maxVal⟩ := by
          simp [template_match, hH, hN, hE, hres, hfit, hmt, hth]
        rw [hok] at he
        exact Except.noConfusion he
      · have hok : template_match lib bh bn options = .ok ⟨false, none, none,
            (minMaxLoc surf).maxVal⟩ := by
          simp [template_match, hH, hN, hE, hres, hfit, hmt, hth]
        rw [hok] at he
        exact Except.noConfusion he
  · intro hlt
    refine ⟨⟨.invalidArg, "模板图尺寸大于大图，无法匹配"⟩, ?_, rfl⟩
    simp [template_match, hH, hN, hE, hres, hlt]

/-- C3 witness: with a 1×1 haystack and 1×1 scaled needle the check passes and
no invalid-argument error occurs. -/
theorem C3_fit_check_witness :
    (∃ e, template_match wlib1 [0] [0] none = .error e ∧ e.status = .invalidArg) ↔
      (wMat1.size.width < wMat1.size.width ∨ wMat1.size.height < wMat1.size.height) :=
  C3_fit_check wlib1 [0] [0] none wMat1 wMat1 wMat1 rfl rfl rfl rfl rfl

/-- C5 (amended): each failing stage raises a fixed error with a distinct
message, but the napi status kinds do not realise the spec's
`DecodeError`/`InvalidArgument` split: a decode exception maps to
`GenericFailure`, while an empty decoded image and an oversized scaled needle
both map to `InvalidArg` and are distinguished only by their messages. -/
theorem C5_error_kinds (lib : CvLib α) (bh bn : List ℕ)
    (options : Option (MatchOptions α)) :
    (∀ e, lib.imdecode bh = .error e →
      template_match lib bh bn options =
        .error ⟨.genericFailure, "解码大图失败: " ++ e⟩) ∧
    (∀ H e, lib.imdecode bh = .ok H → lib.imdecode bn = .error e →
      template_match lib bh bn options =
        .error ⟨.genericFailure, "解码模板图失败: " ++ e⟩) ∧
    (∀ H N, lib.imdecode bh = .ok H → lib.imdecode bn = .ok N →
      (H.empty = true ∨ N.empty = true) →
      template_match lib bh bn options = .error ⟨.invalidArg, "图片数据为空"⟩) ∧
    (∀ H N R, lib.imdecode bh = .ok H → lib.imdecode bn = .ok N →
      H.empty = false → N.empty = false →
      lib.resize N (scaledSize N (scaleOf options)) = .ok R →
      (H.size.width < R.size.width ∨ H.size.height < R.size.height) →
      template_match lib bh bn options =
        .error ⟨.invalidArg, "模板图尺寸大于大图，无法匹配"⟩) ∧
    ("图片数据为空" ≠ "模板图尺寸大于大图，无法匹配") := by
  refine ⟨?_, ?_, ?_, ?_, by decide⟩
  · intro e he
    simp [template_match, he]
  · intro H e hH he
    simp [template_match, hH, he]
  · intro H N hH hN hE
    simp [template_match, hH, hN, hE]
  · intro H N R hH hN hHe hNe hres hlt
    have hE : ¬(H.empty = true ∨ N.empty = true) := by simp [hHe, hNe]
    simp [template_match, hH, hN, hE, hres, hlt]

/-- C5 witness: the three failure stages exercised on toy library
behaviours. -/
theorem C5_error_kinds_witness :
    template_match wlibErr [0] [1] none =
        .error ⟨.genericFailure, "解码大图失败: " ++ "bad"⟩ ∧
      template_match wlibEmpty [0] [1] none =
        .error ⟨.invalidArg, "图片数据为空"⟩ ∧
      template_match wlibBig [0] [1] none =
        .error ⟨.invalidArg, "模板图尺寸大于大图，无法匹配"⟩ :=
  ⟨(C5_error_kinds wlibErr [0] [1] none).1 "bad" rfl,
    (C5_error_kinds wlibEmpty [0] [1] none).2.2.1 wMatEmpty wMatEmpty rfl rfl
      (Or.inl rfl),
    (C5_error_kinds wlibBig [0] [1] none).2.2.2.1 wMat1 wMat2 wMat2 rfl rfl rfl rfl
      rfl (Or.inl (by decide))⟩

/-- C5 counterexample to the claimed taxonomy: the unparsable-buffer failure
carries status `GenericFailure` while the empty-image failure carries
`InvalidArg` (so they are not one shared kind), and the size-mismatch failure
carries the same `InvalidArg` status as the empty-image failure (so its kind
is not distinct). -/
theorem C5_error_kinds_counterexample :
    template_match wlibErr [0] [1] none =
        .error ⟨.genericFailure, "解码大图失败: bad"⟩ ∧
      template_match wlibEmpty [0] [1] none =
        .error ⟨.invalidArg, "图片数据为空"⟩ ∧
      template_match wlibBig [0] [1] none =
        .error ⟨.invalidArg, "模板图尺寸大于大图，无法匹配"⟩ ∧
      Status.genericFailure ≠ Status.invalidArg := by
  refine ⟨?_, ?_, ?_, by decide⟩
  · simp [template_match, wlibErr, wlib1]
  · simp [template_match, wlibEmpty, wlib1, wMatEmpty, Mat.empty]
  · simp [template_match, wlibBig, wlib1, wMat1, wMat2, Mat.empty, Mat.size]

/-- C6: absent options default before use — threshold to `0.8`, scale to
`1.0` — present fields are used exactly, and the threshold value is accepted
without any bounds check: it never influences whether the call succeeds, nor
which error is produced. -/
theorem C6_option_defaults :
    (thresholdOf (α := α) none = 0.8 ∧ scaleOf (α := α) none = 1) ∧
    (∀ a b : Option α, thresholdOf (some ⟨none, b⟩) = 0.8 ∧
      scaleOf (some ⟨a, none⟩) = 1) ∧
    (∀ (t s : α) (a b : Option α), thresholdOf (some ⟨some t, b⟩) = t ∧
      scaleOf (some ⟨a, some s⟩) = s) ∧
    (∀ (lib : CvLib α) (bh bn : List ℕ) (o₁ o₂ : Option (MatchOptions α)),
      scaleOf o₁ = scaleOf o₂ →
      ((template_match lib bh bn o₁).isOk = (template_match lib bh bn o₂).isOk) ∧
      (∀ e, template_match lib bh bn o₁ = .error e →
        template_match lib bh bn o₂ = .error e)) := by
  refine ⟨⟨rfl, rfl⟩, ?_, ?_, ?_⟩
  · intro a b
    exact ⟨rfl, rfl⟩
  · intro t s a b
    exact ⟨rfl, rfl⟩
  · intro lib bh bn o₁ o₂ hsc
    exact template_match_threshold_indep lib bh bn o₁ o₂ hsc

/-- C6 witness: wildly out-of-range thresholds are accepted — the success
of the call is unchanged. -/
theorem C6_option_defaults_witness :
    ((template_match wlib1 [0] [0] none).isOk =
      (template_match wlib1 [0] [0] (some ⟨some 1000, none⟩)).isOk) ∧
    (∀ e, template_match wlib1 [0] [0] none = .error e →
      template_match wlib1 [0] [0] (some ⟨some 1000, none⟩) = .error e) :=
  (C6_option_defaults (α := ℚ)).2.2.2 wlib1 [0] [0] none (some ⟨some 1000, none⟩) rfl

/-- C1: on every successful call the result is shaped from the global maximum
of the correlation surface: `found` holds exactly when the maximum clears the
threshold, `x`/`y` are present exactly when `found` and name the recorded
coordinates of a maximising cell, and `confidence` is the maximum
unconditionally — it dominates every cell and is attained at the recorded
location. -/
theorem C1_result_shape (lib : CvLib α) (bh bn : List ℕ)
    (options : Option (MatchOptions α)) (H N R : Mat α) (surf : Surface α)
    (hH : lib.imdecode bh = .ok H) (hN : lib.imdecode bn = .ok N)
    (hHe : H.empty = false) (hNe : N.empty = false)
    (hres : lib.resize N (scaledSize N (scaleOf options)) = .ok R)
    (hfit : ¬(H.size.width < R.size.width ∨ H.size.height < R.size.height))
    (hS : lib.matchTemplate H R .ccoeffNormed = .ok surf)
    (hr : 0 < surf.rows) (hc : 0 < surf.cols) :
    ∃ r, template_match lib bh bn options = .ok r ∧
      (r.found = true ↔ (minMaxLoc surf).maxVal ≥ thresholdOf options) ∧
      r.confidence = (minMaxLoc surf).maxVal ∧
      (∀ y x, y < surf.rows → x < surf.cols → surf.pix y x ≤ r.confidence) ∧
      (∃ y x, y < surf.rows ∧ x < surf.cols ∧
        (minMaxLoc surf).maxLoc = ⟨(x : ℤ), (y : ℤ)⟩ ∧ r.confidence = surf.pix y x) ∧
      (r.found = true → r.x = some (minMaxLoc surf).maxLoc.x ∧
        r.y = some (minMaxLoc surf).maxLoc.y) ∧
      (r.found = false → r.x = none ∧ r.y = none) := by
  have hE : ¬(H.empty = true ∨ N.empty = true) := by simp [hHe, hNe]
  obtain ⟨y, x, hy, hx, hloc, hval⟩ := minMaxLoc_attained surf hr hc
  by_cases hth : (minMaxLoc surf).maxVal ≥ thresholdOf options
  · refine ⟨⟨true, some (minMaxLoc surf).maxLoc.x, some (minMaxLoc surf).maxLoc.y,
      (minMaxLoc surf).maxVal⟩, ?_, by simp [hth], rfl, ?_, ?_, by simp, by simp⟩
    · simp [template_match, hH, hN, hE, hres, hfit, hS, hth]
    · intro b a hb ha
      exact minMaxLoc_ge surf hb ha
    · exact ⟨y, x, hy, hx, hloc, hval⟩
  · refine ⟨⟨false, none, none, (minMaxLoc surf).maxVal⟩, ?_, by simp [hth], rfl,
      ?_, ?_, by simp, by simp⟩
    · simp [template_match, hH, hN, hE, hres, hfit, hS, hth]
    · intro b a hb ha
      exact minMaxLoc_ge surf hb ha
    · exact ⟨y, x, hy, hx, hloc, hval⟩

/-- C1 witness at the trivial 1×1 call. -/
theorem C1_result_shape_witness :
    ∃ r, template_match wlib1 [0] [0] none = .ok r ∧
      (r.found = true ↔ (minMaxLoc wSurf1).maxVal ≥ thresholdOf none) ∧
      r.confidence = (minMaxLoc wSurf1).maxVal ∧
      (∀ y x, y < wSurf1.rows → x < wSurf1.cols → wSurf1.pix y x ≤ r.confidence) ∧
      (∃ y x, y < wSurf1.rows ∧ x < wSurf1.cols ∧
        (minMaxLoc wSurf1).maxLoc = ⟨(x : ℤ), (y : ℤ)⟩ ∧
        r.confidence = wSurf1.pix y x) ∧
      (r.found = true → r.x = some (minMaxLoc wSurf1).maxLoc.x ∧
        r.y = some (minMaxLoc wSurf1).maxLoc.y) ∧
      (r.found = false → r.x = none ∧ r.y = none) :=
  C1_result_shape wlib1 [0] [0] none wMat1 wMat1 wMat1 wSurf1 rfl rfl rfl rfl rfl
    (by decide) rfl (by decide) (by decide)

/-- C2 counterexample: a 3×3 needle at scale `1/2` — the code truncates
`1.5` to `1` where rounding to nearest would give `2`. -/
theorem C2_round_counterexample :
    scaledSize wMat3 ((1 : ℚ) / 2) = ⟨1, 1⟩ ∧
      round ((wMat3.cols : ℚ) * ((1 : ℚ) / 2)) = 2 ∧ (1 : ℤ) ≠ 2 := by
  have hq : ((wMat3.cols : ℚ)) * ((1 : ℚ) / 2) = 3 / 2 := by
    norm_num [wMat3]
  have hq2 : ((wMat3.rows : ℚ)) * ((1 : ℚ) / 2) = 3 / 2 := by
    norm_num [wMat3]
  have hfl : (⌊(3 / 2 : ℚ)⌋ : ℤ) = 1 := by
    rw [Int.floor_eq_iff]
    norm_num
  have hcast : f64_as_i32 ((3 / 2 : ℚ)) = 1 := by
    rw [f64_as_i32_of_nonneg _ (by norm_num) (by norm_num), hfl]
  refine ⟨?_, ?_, by decide⟩
  · show (⟨f64_as_i32 ((wMat3.cols : ℚ) * ((1 : ℚ) / 2)),
      f64_as_i32 ((wMat3.rows : ℚ) * ((1 : ℚ) / 2))⟩ : Size) = ⟨1, 1⟩
    rw [hq, hq2, hcast]
  · rw [round_eq, hq]
    rw [show (3 / 2 + 1 / 2 : ℚ) = 2 by norm_num]
    simp

/-- C2 (amended): the scaled dimensions are the `f64 → i32` narrowing cast of
`width * scale` and `height * scale`, i.e. truncation toward zero — for a
nonnegative in-range product this is the floor, not rounding to nearest — and
a successful resize produces exactly these dimensions with bilinearly
interpolated (`INTER_LINEAR`) pixels. -/
theorem C2_truncated_dims (N : Mat α) (s : α) (h0 : 0 ≤ s)
    (hw : (N.cols : α) * s < 2 ^ 31) (hh : (N.rows : α) * s < 2 ^ 31) :
    scaledSize N s = ⟨⌊(N.cols : α) * s⌋, ⌊(N.rows : α) * s⌋⟩ ∧
    ∀ R, cvResize N (scaledSize N s) = .ok R →
      R = cvResizeMat N (scaledSize N s) ∧
      (R.cols : ℤ) = ⌊(N.cols : α) * s⌋ ∧ (R.rows : ℤ) = ⌊(N.rows : α) * s⌋ := by
  have hwn : 0 ≤ (N.cols : α) * s := mul_nonneg (Nat.cast_nonneg _) h0
  have hhn : 0 ≤ (N.rows : α) * s := mul_nonneg (Nat.cast_nonneg _) h0
  have hsz : scaledSize N s = ⟨⌊(N.cols : α) * s⌋, ⌊(N.rows : α) * s⌋⟩ := by
    unfold scaledSize
    rw [f64_as_i32_of_nonneg _ hwn hw, f64_as_i32_of_nonneg _ hhn hh]
  refine ⟨hsz, ?_⟩
  intro R hR
  unfold cvResize at hR
  split at hR
  · exact Except.noConfusion hR
  · split at hR
    · exact Except.noConfusion hR
    · rename_i hpos hsrc
      rw [not_or, not_le, not_le] at hpos
      injection hR with hR
      subst hR
      refine ⟨rfl, ?_, ?_⟩
      · show ((scaledSize N s).width.toNat : ℤ) = _
        rw [hsz, Int.toNat_of_nonneg (by rw [hsz] at hpos; exact le_of_lt hpos.1)]
      · show ((scaledSize N s).height.toNat : ℤ) = _
        rw [hsz, Int.toNat_of_nonneg (by rw [hsz] at hpos; exact le_of_lt hpos.2)]

/-- C2 witness: a 1×1 needle at scale `1`. -/
theorem C2_truncated_dims_witness :
    scaledSize wMat1 (1 : ℚ) = ⟨⌊(wMat1.cols : ℚ) * 1⌋, ⌊(wMat1.rows : ℚ) * 1⌋⟩ ∧
    ∀ R, cvResize wMat1 (scaledSize wMat1 (1 : ℚ)) = .ok R →
      R = cvResizeMat wMat1 (scaledSize wMat1 (1 : ℚ)) ∧
      (R.cols : ℤ) = ⌊(wMat1.cols : ℚ) * 1⌋ ∧ (R.rows : ℤ) = ⌊(wMat1.rows : ℚ) * 1⌋ :=
  C2_truncated_dims wMat1 1 (by norm_num) (by norm_num [wMat1]) (by norm_num [wMat1])

/-- C10: the scale option itself is never validated — when the scaled size
truncates to zero or below (any nonpositive scale forces this, as the third
conjunct records), the fits-check never rejects: the call fails inside the
library's resize with a `GenericFailure`, never with the module's own
invalid-argument size-mismatch error. -/
theorem C10_degenerate_scale (sqrt : α → α) (dec : List ℕ → Except String (Mat α))
    (bh bn : List ℕ) (options : Option (MatchOptions α)) (H N : Mat α)
    (hH : dec bh = .ok H) (hN : dec bn = .ok N)
    (hHe : H.empty = false) (hNe : N.empty = false)
    (hdeg : (scaledSize N (scaleOf options)).width ≤ 0 ∨
      (scaledSize N (scaleOf options)).height ≤ 0) :
    template_match (opencvLib dec sqrt) bh bn options =
        .error ⟨.genericFailure, "resize: empty destination size"⟩ ∧
      template_match (opencvLib dec sqrt) bh bn options ≠
        .error ⟨.invalidArg, "模板图尺寸大于大图，无法匹配"⟩ ∧
      (scaleOf options ≤ 0 → (scaledSize N (scaleOf options)).width ≤ 0 ∧
        (scaledSize N (scaleOf options)).height ≤ 0) := by
  have hE : ¬(H.empty = true ∨ N.empty = true) := by simp [hHe, hNe]
  have hresz : cvResize N (scaledSize N (scaleOf options)) =
      .error "resize: empty destination size" := by
    unfold cvResize
    rw [if_pos hdeg]
  have hrun : template_match (opencvLib dec sqrt) bh bn options =
      .error ⟨.genericFailure, "resize: empty destination size"⟩ := by
    simp [template_match, opencvLib, hH, hN, hE, hresz]
  refine ⟨hrun, by rw [hrun]; simp, ?_⟩
  intro hs
  constructor
  · exact f64_as_i32_nonpos _ (mul_nonpos_of_nonneg_of_nonpos (Nat.cast_nonneg _) hs)
  · exact f64_as_i32_nonpos _ (mul_nonpos_of_nonneg_of_nonpos (Nat.cast_nonneg _) hs)

/-- C10 witness: scale `0` on 1×1 images. -/
theorem C10_degenerate_scale_witness :
    template_match (opencvLib wdecQ id) [0] [0] (some ⟨none, some 0⟩) =
        .error ⟨.genericFailure, "resize: empty destination size"⟩ ∧
      template_match (opencvLib wdecQ id) [0] [0] (some ⟨none, some 0⟩) ≠
        .error ⟨.invalidArg, "模板图尺寸大于大图，无法匹配"⟩ ∧
      (scaleOf (some ⟨none, some (0 : ℚ)⟩) ≤ 0 →
        (scaledSize wMat1 (scaleOf (some ⟨none, some (0 : ℚ)⟩))).width ≤ 0 ∧
        (scaledSize wMat1 (scaleOf (some ⟨none, some (0 : ℚ)⟩))).height ≤ 0) :=
  C10_degenerate_scale id wdecQ [0] [0] (some ⟨none, some 0⟩) wMat1 wMat1
    rfl rfl rfl rfl
    (Or.inl (f64_as_i32_nonpos _ (by norm_num [wMat1, scaleOf])))

/-- C7: with decoded nonempty images and a fitting scaled needle, the
`TM_CCOEFF_NORMED` matching step succeeds and its correlation surface has
exactly `(haystack.cols - needle.cols + 1)` columns and
`(haystack.rows - needle.rows + 1)` rows, each cell holding the
coefficient-normalised cross-correlation of the window anchored there; the
full call then succeeds on this surface. -/
theorem C7_surface_shape (sqrt : α → α) (dec : List ℕ → Except String (Mat α))
    (bh bn : List ℕ) (options : Option (MatchOptions α)) (H N R : Mat α)
    (hH : dec bh = .ok H) (hN : dec bn = .ok N)
    (hHe : H.empty = false) (hNe : N.empty = false)
    (hres : cvResize N (scaledSize N (scaleOf options)) = .ok R)
    (hfit : ¬(H.size.width < R.size.width ∨ H.size.height < R.size.height)) :
    cvMatchTemplate sqrt H R .ccoeffNormed =
        .ok (cvMatchSurface sqrt .ccoeffNormed H R) ∧
      (cvMatchSurface sqrt .ccoeffNormed H R).cols = H.cols - R.cols + 1 ∧
      (cvMatchSurface sqrt .ccoeffNormed H R).rows = H.rows - R.rows + 1 ∧
      (∀ y x, (cvMatchSurface sqrt .ccoeffNormed H R).pix y x =
        ccoeffSum H R x y / sqrt (tCSq R * wCSq H R x y)) ∧
      (∃ r, template_match (opencvLib dec sqrt) bh bn options = .ok r) := by
  have hE : ¬(H.empty = true ∨ N.empty = true) := by simp [hHe, hNe]
  have hRpos : 0 < R.cols ∧ 0 < R.rows := by
    unfold cvResize at hres
    split at hres
    · exact Except.noConfusion hres
    · split at hres
      · exact Except.noConfusion hres
      · rename_i hpos hsrc
        rw [not_or, not_le, not_le] at hpos
        injection hres with hres
        subst hres
        constructor
        · show 0 < (scaledSize N (scaleOf options)).width.toNat
          omega
        · show 0 < (scaledSize N (scaleOf options)).height.toNat
          omega
  have hcast : ¬((H.cols : ℤ) < (R.cols : ℤ) ∨ (H.rows : ℤ) < (R.rows : ℤ)) := hfit
  rw [not_or, not_lt, not_lt, Nat.cast_le, Nat.cast_le] at hcast
  have hguard : ¬(H.rows < R.rows ∨ H.cols < R.cols ∨ R.rows = 0 ∨ R.cols = 0) := by
    push_neg
    refine ⟨hcast.2, hcast.1, ?_, ?_⟩ <;> omega
  have hm : cvMatchTemplate sqrt H R .ccoeffNormed =
      .ok (cvMatchSurface sqrt .ccoeffNormed H R) := by
    unfold cvMatchTemplate
    rw [if_neg hguard]
  refine ⟨hm, rfl, rfl, fun y x => rfl, ?_⟩
  by_cases hth : (minMaxLoc (cvMatchSurface sqrt .ccoeffNormed H R)).maxVal ≥
      thresholdOf options
  · exact ⟨⟨true, some (minMaxLoc (cvMatchSurface sqrt .ccoeffNormed H R)).maxLoc.x,
      some (minMaxLoc (cvMatchSurface sqrt .ccoeffNormed H R)).maxLoc.y,
      (minMaxLoc (cvMatchSurface sqrt .ccoeffNormed H R)).maxVal⟩,
      by simp [template_match, opencvLib, hH, hN, hE, hres, hfit, hm, hth]⟩
  · exact ⟨⟨false, none, none,
      (minMaxLoc (cvMatchSurface sqrt .ccoeffNormed H R)).maxVal⟩,
      by simp [template_match, opencvLib, hH, hN, hE, hres, hfit, hm, hth]⟩

/-- Evaluation of the scaled size at the default scale on the 1×1 image. -/
theorem scaledSize_wMat1 :
    scaledSize wMat1 (scaleOf (none : Option (MatchOptions ℚ))) = ⟨1, 1⟩ := by
  show (⟨f64_as_i32 ((wMat1.cols : ℚ) * 1), f64_as_i32 ((wMat1.rows : ℚ) * 1)⟩ :
    Size) = ⟨1, 1⟩
  have h1 : ((wMat1.cols : ℕ) : ℚ) * 1 = 1 := by norm_num [wMat1]
  have h2 : ((wMat1.rows : ℕ) : ℚ) * 1 = 1 := by norm_num [wMat1]
  rw [h1, h2, f64_as_i32_of_nonneg _ (by norm_num) (by norm_num)]
  simp

/-- The bilinear resize of the 1×1 image to size `1 × 1` succeeds. -/
theorem cvResize_wMat1 :
    cvResize wMat1 (scaledSize wMat1 (scaleOf (none : Option (MatchOptions ℚ)))) =
      .ok (cvResizeMat wMat1 ⟨1, 1⟩) := by
  rw [scaledSize_wMat1]
  unfold cvResize
  rw [if_neg (by norm_num), if_neg (by norm_num [wMat1])]

/-- C7 witness at the trivial 1×1 call with the identity in place of the
square root. -/
theorem C7_surface_shape_witness :
    cvMatchTemplate id wMat1 (cvResizeMat wMat1 ⟨1, 1⟩) .ccoeffNormed =
        .ok (cvMatchSurface id .ccoeffNormed wMat1 (cvResizeMat wMat1 ⟨1, 1⟩)) ∧
      (cvMatchSurface id .ccoeffNormed wMat1 (cvResizeMat wMat1 ⟨1, 1⟩)).cols =
        wMat1.cols - (cvResizeMat wMat1 ⟨1, 1⟩).cols + 1 ∧
      (cvMatchSurface id .ccoeffNormed wMat1 (cvResizeMat wMat1 ⟨1, 1⟩)).rows =
        wMat1.rows - (cvResizeMat wMat1 ⟨1, 1⟩).rows + 1 ∧
      (∀ y x, (cvMatchSurface id .ccoeffNormed wMat1 (cvResizeMat wMat1 ⟨1, 1⟩)).pix y x =
        ccoeffSum wMat1 (cvResizeMat wMat1 ⟨1, 1⟩) x y /
          id (tCSq (cvResizeMat wMat1 ⟨1, 1⟩) *
            wCSq wMat1 (cvResizeMat wMat1 ⟨1, 1⟩) x y)) ∧
      (∃ r, template_match (opencvLib wdecQ id) [0] [0] none = .ok r) :=
  C7_surface_shape id wdecQ [0] [0] none wMat1 wMat1 (cvResizeMat wMat1 ⟨1, 1⟩)
    rfl rfl rfl rfl cvResize_wMat1 (by decide)

/-- If the haystack pixels are all zero the run on 1×1 images yields
`found = false` with confidence `0`. -/
theorem tmatchR_eval :
    template_match (opencvLib wdecR Real.sqrt) [0] [0] none =
      .ok ⟨false, none, none, (0 : ℝ)⟩ := by
  have hz : ∀ a b c, wMatR.pix a b c = (0 : ℝ) := fun _ _ _ => rfl
  have hsz : scaledSize wMatR (scaleOf (none : Option (MatchOptions ℝ))) = ⟨1, 1⟩ := by
    show (⟨f64_as_i32 ((wMatR.cols : ℝ) * 1), f64_as_i32 ((wMatR.rows : ℝ) * 1)⟩ :
      Size) = ⟨1, 1⟩
    have h1 : ((wMatR.cols : ℕ) : ℝ) * 1 = 1 := by norm_num [wMatR]
    have h2 : ((wMatR.rows : ℕ) : ℝ) * 1 = 1 := by norm_num [wMatR]
    rw [h1, h2, f64_as_i32_of_nonneg _ (by norm_num) (by norm_num)]
    simp
  have hres : cvResize wMatR (scaledSize wMatR (scaleOf (none : Option (MatchOptions ℝ)))) =
      .ok (cvResizeMat wMatR ⟨1, 1⟩) := by
    rw [hsz]
    unfold cvResize
    rw [if_neg (by norm_num), if_neg (by norm_num [wMatR])]
  have hguard : ¬(wMatR.rows < (cvResizeMat wMatR ⟨1, 1⟩).rows ∨
      wMatR.cols < (cvResizeMat wMatR ⟨1, 1⟩).cols ∨
      (cvResizeMat wMatR ⟨1, 1⟩).rows = 0 ∨ (cvResizeMat wMatR ⟨1, 1⟩).cols = 0) := by
    decide
  have hm : cvMatchTemplate Real.sqrt wMatR (cvResizeMat wMatR ⟨1, 1⟩) .ccoeffNormed =
      .ok (cvMatchSurface Real.sqrt .ccoeffNormed wMatR (cvResizeMat wMatR ⟨1, 1⟩)) := by
    unfold cvMatchTemplate
    rw [if_neg hguard]
  have hpix : ∀ y x,
      (cvMatchSurface Real.sqrt .ccoeffNormed wMatR (cvResizeMat wMatR ⟨1, 1⟩)).pix y x
        = (0 : ℝ) := by
    intro y x
    show ccoeffSum wMatR (cvResizeMat wMatR ⟨1, 1⟩) x y / Real.sqrt _ = 0
    rw [ccoeffSum_zero_haystack _ _ _ _ hz, zero_div]
  have hcells : scanCells
      (cvMatchSurface Real.sqrt .ccoeffNormed wMatR (cvResizeMat wMatR ⟨1, 1⟩)) =
      [(0, 0)] := rfl
  have hmm : minMaxLoc
      (cvMatchSurface Real.sqrt .ccoeffNormed wMatR (cvResizeMat wMatR ⟨1, 1⟩)) =
      ⟨0, 0, ⟨0, 0⟩, ⟨0, 0⟩⟩ := by
    unfold minMaxLoc
    rw [hcells]
    simp [mmUpdate, mmUpdateMin, mmUpdateMax, hpix 0 0]
  have hfit : ¬(wMatR.size.width < (cvResizeMat wMatR ⟨1, 1⟩).size.width ∨
      wMatR.size.height < (cvResizeMat wMatR ⟨1, 1⟩).size.height) := by
    decide
  have hWe : wMatR.empty = false := rfl
  have hth : ¬((minMaxLoc (cvMatchSurface Real.sqrt .ccoeffNormed wMatR
      (cvResizeMat wMatR ⟨1, 1⟩))).maxVal ≥ thresholdOf (none : Option (MatchOptions ℝ))) := by
    rw [hmm]
    show ¬((0 : ℝ) ≥ 0.8)
    norm_num
  have hthr : thresholdOf (none : Option (MatchOptions ℝ)) = 0.8 := rfl
  simp [template_match, opencvLib, wdecR, hWe, hres, hfit, hm, hth, hmm, hthr] <;>
    norm_num

/-- C8: every successful call returns a confidence in the closed interval
`[-1, 1]`: the confidence is the scan maximum of the `TM_CCOEFF_NORMED`
surface, whose cells are bounded by Cauchy-Schwarz (exact real arithmetic
model). -/
theorem C8_confidence_range (dec : List ℕ → Except String (Mat ℝ))
    (bh bn : List ℕ) (options : Option (MatchOptions ℝ)) (r : MatchResult ℝ)
    (hok : template_match (opencvLib dec Real.sqrt) bh bn options = .ok r) :
    -1 ≤ r.confidence ∧ r.confidence ≤ 1 := by
  simp only [template_match, opencvLib] at hok
  rcases hdh : dec bh with e | H
  · rw [hdh] at hok
    exact Except.noConfusion hok
  simp only [hdh] at hok
  rcases hdn : dec bn with e | N
  · rw [hdn] at hok
    exact Except.noConfusion hok
  simp only [hdn] at hok
  by_cases hE : (H.empty || N.empty) = true
  · rw [if_pos hE] at hok
    exact Except.noConfusion hok
  rw [if_neg hE] at hok
  rcases hres : cvResize N (scaledSize N (scaleOf options)) with e | R
  · rw [hres] at hok
    exact Except.noConfusion hok
  simp only [hres] at hok
  by_cases hfit : H.size.width < R.size.width ∨ H.size.height < R.size.height
  · rw [if_pos hfit] at hok
    exact Except.noConfusion hok
  rw [if_neg hfit] at hok
  rcases hmt : cvMatchTemplate Real.sqrt H R .ccoeffNormed with e | surf
  · rw [hmt] at hok
    exact Except.noConfusion hok
  simp only [hmt] at hok
  rw [Except.ok.injEq] at hok
  subst hok
  rw [cvMatchTemplate] at hmt
  split at hmt
  · exact Except.noConfusion hmt
  · rw [Except.ok.injEq] at hmt
    subst hmt
    constructor
    · show -1 ≤ (minMaxLoc (cvMatchSurface Real.sqrt .ccoeffNormed H R)).maxVal
      calc (-1 : ℝ) ≤ (cvMatchSurface Real.sqrt .ccoeffNormed H R).pix 0 0 :=
            (abs_le.mp (ccoeffNormed_abs_le_one H R 0 0)).1
        _ ≤ _ := le_minMaxLoc_maxVal _
    · show (minMaxLoc (cvMatchSurface Real.sqrt .ccoeffNormed H R)).maxVal ≤ 1
      exact minMaxLoc_maxVal_le _ 1
        (fun y x => (abs_le.mp (ccoeffNormed_abs_le_one H R x y)).2)

/-- C8 witness: the successful trivial call has confidence `0 ∈ [-1, 1]`. -/
theorem C8_confidence_range_witness :
    -1 ≤ (MatchResult.mk false none none (0 : ℝ)).confidence ∧
      (MatchResult.mk false none none (0 : ℝ)).confidence ≤ 1 :=
  C8_confidence_range wdecR [0] [0] none ⟨false, none, none, 0⟩ tmatchR_eval

end Needle
